import Mathlib

/-!
Verification of the IR-frontend deserializer (`ngraph/frontend/ir/src/model.cpp`)
and the OpenCL device probe (`clDNN/runtime/ocl/ocl_device.cpp`).

The C++ is shallowly embedded: each function below mirrors one function of the
source, with machine integers as `Nat`/`Int`, the XML tree replaced by the
already-extracted attribute values, and exceptions as `Except String`.
Loops that advance an index are realized with an explicit fuel argument that
strictly bounds the number of iterations the C++ loop can perform, so the
fuel-exhaustion branch is never taken on the inputs the source can see.
-/

namespace IrFrontend

/-! ## Layer parameter records (`GenericLayerParams`, model.cpp lines 17-52) -/

/-- One `<port>` record: declared id, parsed dims, precision (output ports
only) and the tensor-name set parsed from the `names` attribute. -/
structure LayerPortData where
  portId : Nat
  dims : List Int
  precision : Option String
  names : List (List Char)
deriving DecidableEq

/-- One `<layer>` record as read by `parseGenericParams`. -/
structure GenericLayerParams where
  layerId : Nat
  version : String
  name : String
  type : String
  inputPorts : List LayerPortData
  outputPorts : List LayerPortData
deriving DecidableEq

/-- The counting loop shared by `getRealInputPortId` / `getRealOutputPortId`:
walk the declared ports, returning the rank of the first port whose declared
id matches. -/
def findPortIndex : List LayerPortData → Nat → Nat → Option Nat
  | [], _, _ => none
  | pt :: rest, id, acc =>
    if pt.portId = id then some acc else findPortIndex rest id (acc + 1)

/-- `GenericLayerParams::getRealInputPortId` (model.cpp lines 31-40). -/
def getRealInputPortId (p : GenericLayerParams) (id : Nat) : Except String Nat :=
  match findPortIndex p.inputPorts id 0 with
  | some k => .ok k
  | none => .error ("Can not find input port with id " ++ toString id ++ " in layer " ++ p.name)

/-- `GenericLayerParams::getRealOutputPortId` (model.cpp lines 42-51). -/
def getRealOutputPortId (p : GenericLayerParams) (id : Nat) : Except String Nat :=
  match findPortIndex p.outputPorts id 0 with
  | some k => .ok k
  | none => .error ("Can not find output port with id " ++ toString id ++ " in layer " ++ p.name)

/-! ## Edge records and the input-gathering loop of `parse_function`
(model.cpp lines 632-678) -/

/-- One `<edge>` as read by `parse_function`. -/
structure EdgeRec where
  fromLayerId : Nat
  fromPortId : Nat
  toLayerId : Nat
  toPortId : Nat
deriving DecidableEq

/-- The loop at model.cpp lines 666-678: allocate an input vector sized to the
number of incoming edges of the destination layer, then for each edge place
the source output (source layer id, real output index) at the destination's
real input index.  `built` says whether `id_to_node` already holds the source;
`srcParams` is the parameter table (`params[e.fromLayerId].params`). -/
def gatherInputs (destParams : GenericLayerParams)
    (srcParams : Nat → GenericLayerParams) (built : Nat → Bool)
    (es : List EdgeRec) : Except String (List (Option (Nat × Nat))) :=
  let n := es.length
  es.foldlM
    (fun acc e =>
      if built e.fromLayerId = false then
        .error ("Attempt to access node " ++ toString e.fromLayerId ++ " that not in graph.")
      else
        match getRealInputPortId destParams e.toPortId with
        | .error msg => .error msg
        | .ok realIn =>
          if n ≤ realIn then
            .error (destParams.type ++ " layer " ++ destParams.name ++ " is inconsistent!")
          else
            match getRealOutputPortId (srcParams e.fromLayerId) e.fromPortId with
            | .error msg => .error msg
            | .ok realOut => .ok (acc.set realIn (some (e.fromLayerId, realOut))))
    (List.replicate n none)

/-! ## `<dim>` parsing inside `parseGenericParams` (model.cpp lines 739-748) -/

/-- Characters `std::istream` treats as whitespace. -/
def istreamWs (c : Char) : Bool :=
  c = ' ' || c = '\t' || c = '\n' || c = '\r' || c = Char.ofNat 11 || c = Char.ofNat 12

/-- Read a run of decimal digits, accumulating their value. -/
def readDigitsAux : List Char → Nat → Nat
  | [], acc => acc
  | c :: rest, acc =>
    if c.isDigit then readDigitsAux rest (acc * 10 + (c.toNat - '0'.toNat)) else acc

/-- `std::stringstream >> int64_t`: skip leading whitespace, an optional sign,
then at least one digit; extraction fails (`none`) when no digit follows. -/
def istreamReadInt (s : List Char) : Option Int :=
  let cs := s.dropWhile istreamWs
  match cs with
  | '-' :: rest =>
    match rest with
    | c :: _ => if c.isDigit then some (-(readDigitsAux rest 0 : Int)) else none
    | [] => none
  | '+' :: rest =>
    match rest with
    | c :: _ => if c.isDigit then some ((readDigitsAux rest 0 : Int)) else none
    | [] => none
  | c :: _ => if c.isDigit then some ((readDigitsAux cs 0 : Int)) else none
  | [] => none

/-- The `<dim>` loop body: `if (!(ss >> dim) || dim < -1) IE_THROW()`
(model.cpp lines 739-748). -/
def parseDim (s : List Char) : Except String Int :=
  match istreamReadInt s with
  | none =>
    .error ("dimension (" ++ String.mk s ++ ") must be greater or equal to -1")
  | some d =>
    if d < -1 then
      .error ("dimension (" ++ String.mk s ++ ") must be greater or equal to -1")
    else .ok d

/-- All `<dim>` children of one port, in order. -/
def parseDims (ds : List (List Char)) : Except String (List Int) :=
  ds.foldrM (fun s acc =>
    match parseDim s with
    | .error e => .error e
    | .ok d => .ok (d :: acc)) []

/-! ## The `names` attribute of an output port (model.cpp lines 757-772):
comma-split via `getParameters<std::string>`, then the escaped-comma
restore loop. -/

/-- Repeated `std::getline(ss, field, ',')`: every delimiter closes a field,
but a trailing delimiter does not open an empty final field (the next
`getline` fails at end of stream). -/
def getlineSplit (s : List Char) : List (List Char) :=
  match s with
  | [] => []
  | _ =>
    let parts := s.splitOn ','
    if s.getLast? = some ',' then parts.dropLast else parts

/-- `std::stringstream >> std::string`: skip whitespace, then take the run of
non-whitespace characters. -/
def firstToken (s : List Char) : List Char :=
  (s.dropWhile istreamWs).takeWhile (fun c => !istreamWs c)

/-- `getParameters<std::string>` (model.cpp lines 69-85): split on commas,
rejecting empty fields, and stream-extract each field. -/
def getParametersString (s : List Char) : Except String (List (List Char)) :=
  let fields := getlineSplit s
  if fields.any List.isEmpty then
    .error ("Cannot get vector of parameters! \"" ++ String.mk s ++ "\" is incorrect")
  else .ok (fields.map firstToken)

/-- `names[i].at(names[i].length() - 1) == '\\'`. -/
def endsBackslash (s : List Char) : Bool :=
  match s.getLast? with
  | some c => c = '\\'
  | none => false

/-- `std::string::replace(pos, 1, ",")`: one character at `pos` replaced by a
comma. -/
def replaceAtWithComma (s : List Char) (pos : Nat) : List Char :=
  s.take pos ++ [','] ++ s.drop (pos + 1)

/-- The inner `while` of the name-restore loop (model.cpp lines 766-769):
while the CURRENT token ends in a backslash, replace the character at
position `names[i].length() - 1` OF THE ACCUMULATED NAME by a comma and
append the next token.  The fuel strictly exceeds the remaining tokens so the
zero-fuel branch is never taken by the wrapper below. -/
def restoreLoop (names : List (List Char)) : Nat → Nat → List Char → List Char × Nat
  | 0, i, name => (name, i)
  | fuel + 1, i, name =>
    if i < names.length then
      if endsBackslash (names.getD i []) then
        let tok := names.getD i []
        let name2 := replaceAtWithComma name (tok.length - 1)
        let name3 := name2 ++ names.getD (i + 1) []
        restoreLoop names fuel (i + 1) name3
      else (name, i)
    else (name, i)

/-- The outer `for` of the name-restore loop (model.cpp lines 759-771). -/
def restoreNamesAux (names : List (List Char)) : Nat → Nat → List (List Char)
  | 0, _ => []
  | fuel + 1, i =>
    if i < names.length then
      let r := restoreLoop names names.length i (names.getD i [])
      r.1 :: restoreNamesAux names fuel (r.2 + 1)
    else []

/-- The whole restore pass over the comma-split token vector. -/
def restoreNames (names : List (List Char)) : List (List Char) :=
  restoreNamesAux names (names.length + 1) 0

/-- Parsing of an output port's `names` attribute: `getParameters` followed by
the escaped-comma restore (model.cpp lines 757-772); the result is the list
of names placed into `port.names`. -/
def parsePortNames (s : List Char) : Except String (List (List Char)) :=
  match getParametersString s with
  | .error e => .error e
  | .ok names => .ok (restoreNames names)

/-! ## Assign/ReadValue control-dependency post-pass
(model.cpp lines 705-726) -/

/-- The dynamic kind of a constructed node, as far as the post-pass inspects
it: `ReadValueBase` and `AssignBase` carry a `variable_id`; an `AssignBase` is
a `Sink`. -/
inductive NodeKind where
  | readValueNode (var : String)
  | assignNode (var : String)
  | plainNode
deriving DecidableEq

/-- A node of `func_nodes.all`, in construction (topological) order. -/
structure BuiltNode where
  nodeId : Nat
  kind : NodeKind
deriving DecidableEq

/-- `std::map::operator[]`-style insertion: overwrite the entry when the key
exists, append otherwise. -/
def assocPut : List (String × Nat) → String → Nat → List (String × Nat)
  | [], k, v => [(k, v)]
  | (k0, v0) :: rest, k, v =>
    if k0 = k then (k0, v) :: rest else (k0, v0) :: assocPut rest k v

/-- Association lookup (`std::map::at` succeeds exactly on `some`). -/
def assocGet : List (String × Nat) → String → Option Nat
  | [], _ => none
  | (k0, v0) :: rest, k => if k0 = k then some v0 else assocGet rest k

/-- `variable_id_to_read_value` after the construction loop: every ReadValue
is recorded under its `variable_id` as it is built (model.cpp lines 709-711). -/
def recordReadValues (nodes : List BuiltNode) : List (String × Nat) :=
  nodes.foldl
    (fun m n =>
      match n.kind with
      | .readValueNode v => assocPut m v n.nodeId
      | _ => m)
    []

/-- `func_nodes.sinks`: the construction loop appends every node that casts to
`Sink` (here: every Assign) in order (model.cpp lines 705-707). -/
def sinksOf (nodes : List BuiltNode) : List BuiltNode :=
  nodes.filter (fun n =>
    match n.kind with
    | .assignNode _ => true
    | _ => false)

/-- The post-pass over the sinks (model.cpp lines 722-726): for every sink
that is an Assign, look up the ReadValue recorded under the Assign's
`variable_id` (`std::map::at` throws when the key is absent) and emit the
control-dependency pair (assign node, read-value node). -/
def attachAssignDeps (rv : List (String × Nat)) : List BuiltNode → Except String (List (Nat × Nat))
  | [] => .ok []
  | n :: rest =>
    match n.kind with
    | .assignNode v =>
      match assocGet rv v with
      | none => .error ("map::at: variable " ++ v ++ " has no ReadValue")
      | some r =>
        match attachAssignDeps rv rest with
        | .error e => .error e
        | .ok deps => .ok ((n.nodeId, r) :: deps)
    | _ => attachAssignDeps rv rest

/-- End of `parse_function` (model.cpp lines 718-728): the Function value is
returned only if the post-pass finished without throwing. -/
def finishFunction (nodes : List BuiltNode) : Except String (List BuiltNode × List (Nat × Nat)) :=
  match attachAssignDeps (recordReadValues nodes) (sinksOf nodes) with
  | .error e => .error e
  | .ok deps => .ok (nodes, deps)

/-! ## Constant weight buffers: the `AlignedBuffer` branch of `on_adapter`
(model.cpp lines 507-547) -/

/-- Modelled from the spec: `ngraph::shape_size` lives in the operator
library, outside these sources; per the spec the bound uses the shape's
volume, the product of its dimensions. -/
def shape_size (shape : List Int) : Nat :=
  (shape.foldl (fun a d => a * d) 1).toNat

/-- `std::ceil(shape_size(shape) * el_type.bitwidth() / 8.f)` as the exact
ceiling of `volume * bitwidth / 8`. -/
def requiredBytes (volume bitwidth : Nat) : Nat :=
  (volume * bitwidth + 7) / 8

/-- The buffer a Constant receives in the weight-sharing case: a view into
the weights blob (pointer offset and length plus shared ownership of the
blob), never a copy of the bytes. -/
structure SharedBufferView where
  offset : Nat
  size : Nat
deriving DecidableEq

/-- The bytes the view denotes inside a weights blob. -/
def viewBytes (weights : List Nat) (v : SharedBufferView) : List Nat :=
  (weights.drop v.offset).take v.size

/-- The weight-validation chain of model.cpp lines 534-546: empty blob, then
`length < offset + size`, then `size < ceil(volume * bitwidth / 8)`; on
success the `SharedBuffer` is a slice of the blob at `offset` of `size`
bytes. -/
def constWeightsBuffer (offset size bitwidth : Nat) (shape : List Int)
    (weightsLen : Nat) : Except String SharedBufferView :=
  if weightsLen = 0 then
    .error "Empty weights data in bin file or bin file cannot be found!"
  else if weightsLen < offset + size then
    .error "Incorrect weights in bin file!"
  else if size < requiredBytes (shape_size shape) bitwidth then
    .error "Attribute and shape size are inconsistent!"
  else .ok { offset := offset, size := size }

/-- What the adapter sets: an owning copy of an inline string attribute, or a
shared view of the weights blob. -/
inductive BufferResult where
  | ownedCopy (content : String)
  | sharedView (v : SharedBufferView)
deriving DecidableEq

/-- The whole `AlignedBuffer` case of `on_adapter` (model.cpp lines 507-547):
no `<data>` node is an error; an inline string attribute of the same name
wins and is copied; otherwise only a `Const` operator's `value` attribute
reads `offset`/`size` (`GetUInt64Attr` throws when absent), silently leaves
the buffer unset when `element_type` or `shape` is absent, and validates the
weight slice. -/
def on_adapter_aligned_buffer (typ name : String) (dataPresent : Bool)
    (inlineVal : Option String) (offsetAttr sizeAttr bitwidthAttr : Option Nat)
    (shapeAttr : Option (List Int)) (weightsLen : Nat) :
    Except String (Option BufferResult) :=
  if dataPresent = false then
    .error ("No attrtibutes defined for " ++ typ ++ " op!")
  else
    match inlineVal with
    | some v => .ok (some (.ownedCopy v))
    | none =>
      if name = "value" ∧ typ = "Const" then
        match offsetAttr with
        | none => .error "node has no attribute offset"
        | some offset =>
          match sizeAttr with
          | none => .error "node has no attribute size"
          | some size =>
            match bitwidthAttr with
            | none => .ok none
            | some bw =>
              match shapeAttr with
              | none => .ok none
              | some shape =>
                match constWeightsBuffer offset size bw shape weightsLen with
                | .error e => .error e
                | .ok v => .ok (some (.sharedView v))
      else .ok none

/-! ## Opset resolution and version remapping in `createNode`
(model.cpp lines 809-880) -/

/-- The fixed list of model.cpp lines 815-823. -/
def experimental_ops_added_to_opset : List String :=
  [ "ExperimentalDetectronDetectionOutput",
    "ExperimentalDetectronGenerateProposalsSingleImage",
    "ExperimentalDetectronPriorGridGenerator",
    "ExperimentalDetectronROIFeatureExtractor",
    "ExperimentalDetectronTopKROIs",
    "GRUCell",
    "RNNCell",
    "Proposal" ]

/-- How `createNode` resolved the node: from a registered opset under a
(possibly remapped) type name, or as a framework-node fallback. -/
inductive CreatedNode where
  | made (opsetName typeName : String)
  | frameworkNode
deriving DecidableEq

/-- Opset resolution of `createNode`: the experimental/extension remap to
opset6 replaces the registry lookup before anything else; inside a found
opset, `Const` is constructed as `Constant` and `{MVN, ROIPooling,
ReorgYolo}` at `opset1` are taken from opset2; a type the opset does not
contain, or an opset lookup that failed without the framework-node fallback,
is an error.  `hasOpset` is registry membership, `containsType` is
`opset.create_insensitive(type) != nullptr`. -/
def createNodeOpset (hasOpset : String → Bool) (containsType : String → String → Bool)
    (use_framework_node : Bool) (typ version : String) : Except String CreatedNode :=
  let opsetFound : Option String :=
    if typ ∈ experimental_ops_added_to_opset ∧
        (version = "experimental" ∨ version = "extension") then
      if hasOpset "opset6" then some "opset6" else none
    else
      if hasOpset version then some version else none
  match opsetFound with
  | some osName =>
    let typ2 := if typ = "Const" then "Constant" else typ
    if version = "opset1" ∧ (typ2 = "MVN" ∨ typ2 = "ROIPooling" ∨ typ2 = "ReorgYolo") then
      if hasOpset "opset2" then
        if containsType "opset2" typ2 then .ok (.made "opset2" typ2)
        else .error ("Opset " ++ version ++ " does not contain the operation with type: " ++ typ2)
      else .error ("Cannot create " ++ typ ++ " layer from unsupported opset: " ++ version)
    else
      if containsType osName typ2 then .ok (.made osName typ2)
      else .error ("Opset " ++ version ++ " does not contain the operation with type: " ++ typ2)
  | none =>
    if use_framework_node then .ok .frameworkNode
    else .error ("Cannot create " ++ typ ++ " layer from unsupported opset: " ++ version)

/-! ## Sub-graph `<port_map>` descriptions
(`parseInputDescription` model.cpp lines 258-327,
`parseOutputDescription` lines 329-380) -/

/-- One `<port_map>/<input>` entry: `external_port_id` is signed
(`GetInt64Attr`), `axis` is read with `GetUIntAttr` when present, the slice
attributes are optional with defaults applied at use. -/
structure PortMapInput where
  external_port_id : Int
  internal_layer_id : Nat
  axis : Option Nat
  start : Option Int
  stride : Option Int
  end_ : Option Int
  part_size : Option Int
deriving DecidableEq

/-- One `<port_map>/<output>` entry; here `axis` is signed (`GetInt64Attr`). -/
structure PortMapOutput where
  external_port_id : Int
  internal_layer_id : Nat
  axis : Option Int
  start : Option Int
  stride : Option Int
  end_ : Option Int
  part_size : Option Int
deriving DecidableEq

/-- One `<back_edges>/<edge>`. -/
structure BackEdge where
  from_layer : Nat
  to_layer : Nat
deriving DecidableEq

/-- `SubGraphOp::InputDescription` variants, with the constructor argument
order of the source (`ext_port_id`, body index, then for Sliced
`start, stride, part_size, end, axis`; for Merged the body-result index). -/
inductive InputDesc where
  | slicedInput (ext : Int) (body : Nat) (start stride part_size end_ : Int) (axis : Nat)
  | mergedInput (ext : Int) (body : Nat) (bodyResult : Nat)
  | invariantInput (ext : Int) (body : Nat)
deriving DecidableEq

/-- `SubGraphOp::OutputDescription` variants (body-result index,
`output_number`, then the Concat slice arguments or the Body iteration). -/
inductive OutputDesc where
  | concatOutput (body : Nat) (output_number : Nat) (start stride part_size end_ axis : Int)
  | bodyOutput (body : Nat) (output_number : Nat) (iteration : Int)
deriving DecidableEq

/-- The `output_number` a description carries. -/
def outputNumberOf : OutputDesc → Nat
  | .concatOutput _ n _ _ _ _ _ => n
  | .bodyOutput _ n _ => n

/-- `std::map::emplace` into a key-sorted association list: insert in key
order, keeping the existing entry when the key is already present. -/
def emplaceSorted {β : Type} (keyOf : β → Int) : List β → β → List β
  | [], b => [b]
  | x :: xs, b =>
    if keyOf b < keyOf x then b :: x :: xs
    else if keyOf b = keyOf x then x :: xs
    else x :: emplaceSorted keyOf xs b

/-- Filling a `std::map` by emplacing every element in document order. -/
def sortByKey {β : Type} (keyOf : β → Int) (l : List β) : List β :=
  l.foldl (emplaceSorted keyOf) []

/-- The input map's key: `std::map<uint64_t, ...>` keyed by the signed
`external_port_id` cast to `uint64_t` (so `-1` sorts last). -/
def keyInput (inp : PortMapInput) : Int :=
  inp.external_port_id % (2 ^ 64 : Int)

/-- The output map's key: `std::map<int64_t, ...>`, plain signed order. -/
def keyOutput (o : PortMapOutput) : Int :=
  o.external_port_id

/-- The loop body of `parseInputDescription` (model.cpp lines 270-325) for
one `<port_map>/<input>`: axis set means Sliced (defaults `start=0`,
`stride=1`, `end=-1`, `part_size=1`); otherwise the first matching back-edge
means Merged; otherwise a non-negative `external_port_id` means Invariant;
otherwise nothing is emitted.  `ioIn`/`ioOut` are the body io-map lookups
(`std::map::at`, throwing on a missing key). -/
def processInput (backEdges : List BackEdge) (ioIn ioOut : Nat → Option Nat)
    (inp : PortMapInput) : Except String (Option InputDesc) :=
  match inp.axis with
  | some a =>
    match ioIn inp.internal_layer_id with
    | none => .error "map::at: body parameter is not in the io map"
    | some idx =>
      .ok (some (.slicedInput inp.external_port_id idx (inp.start.getD 0)
        (inp.stride.getD 1) (inp.part_size.getD 1) (inp.end_.getD (-1)) a))
  | none =>
    match backEdges.find? (fun be => be.to_layer == inp.internal_layer_id) with
    | some e =>
      match ioIn inp.internal_layer_id with
      | none => .error "map::at: body parameter is not in the io map"
      | some idxIn =>
        match ioOut e.from_layer with
        | none => .error "map::at: body result is not in the io map"
        | some idxOut => .ok (some (.mergedInput inp.external_port_id idxIn idxOut))
    | none =>
      if 0 ≤ inp.external_port_id then
        match ioIn inp.internal_layer_id with
        | none => .error "map::at: body parameter is not in the io map"
        | some idx => .ok (some (.invariantInput inp.external_port_id idx))
      else .ok none

/-- The loop of `parseInputDescription` over the sorted input map. -/
def collectInputs (backEdges : List BackEdge) (ioIn ioOut : Nat → Option Nat) :
    List PortMapInput → Except String (List InputDesc)
  | [] => .ok []
  | inp :: rest =>
    match processInput backEdges ioIn ioOut inp with
    | .error e => .error e
    | .ok none => collectInputs backEdges ioIn ioOut rest
    | .ok (some d) =>
      match collectInputs backEdges ioIn ioOut rest with
      | .error e => .error e
      | .ok ds => .ok (d :: ds)

/-- `XmlDeserializer::parseInputDescription` (model.cpp lines 258-327). -/
def parseInputDescription (backEdges : List BackEdge) (ioIn ioOut : Nat → Option Nat)
    (inps : List PortMapInput) : Except String (List InputDesc) :=
  collectInputs backEdges ioIn ioOut (sortByKey keyInput inps)

/-- The loop of `parseOutputDescription` (model.cpp lines 341-378) with the
running `output_number`: a negative `external_port_id` emits nothing and
keeps the counter; otherwise axis set means Concat (same slice defaults),
else Body with iteration `-1`, and the counter advances. -/
def parseOutputsLoop (ioOut : Nat → Option Nat) :
    List PortMapOutput → Nat → Except String (List OutputDesc)
  | [], _ => .ok []
  | o :: rest, num =>
    if 0 ≤ o.external_port_id then
      match ioOut o.internal_layer_id with
      | none => .error "map::at: body result is not in the io map"
      | some bodyIdx =>
        let d := match o.axis with
          | some ax =>
            OutputDesc.concatOutput bodyIdx num (o.start.getD 0) (o.stride.getD 1)
              (o.part_size.getD 1) (o.end_.getD (-1)) ax
          | none => OutputDesc.bodyOutput bodyIdx num (-1)
        match parseOutputsLoop ioOut rest (num + 1) with
        | .error e => .error e
        | .ok ds => .ok (d :: ds)
    else parseOutputsLoop ioOut rest num

/-- `XmlDeserializer::parseOutputDescription` (model.cpp lines 329-380). -/
def parseOutputDescription (ioOut : Nat → Option Nat)
    (outs : List PortMapOutput) : Except String (List OutputDesc) :=
  parseOutputsLoop ioOut (sortByKey keyOutput outs) 0

/-! ## Topological order by DFS from the output layers
(model.cpp lines 617-652 and the construction loop at 661-714) -/

/-- What `parse_function` reads of a `<layer>` for seeding the DFS. -/
structure XmlLayer where
  layerId : Nat
  type : String
deriving DecidableEq

/-- The DFS seeds: layers whose type is `Result` or `Assign`
(model.cpp lines 623-625). -/
def outputSeeds (layers : List XmlLayer) : List Nat :=
  (layers.filter (fun l => l.type == "Result" || l.type == "Assign")).map XmlLayer.layerId

/-- `edges[id]` followed backwards: the source layer of every edge whose
destination is `id` (`edges` grouped by to-layer, document order kept). -/
def adjOf (es : List EdgeRec) (id : Nat) : List Nat :=
  (es.filter (fun e => e.toLayerId == id)).map EdgeRec.fromLayerId

/-- The recursive DFS of model.cpp lines 641-652, with its pending calls as a
worklist: a visited id is skipped, an unvisited id is marked, its edge
sources are visited, and the id is emitted in post-order.  The fuel bounds
the number of steps; every theorem below holds for every fuel, and the
wrapper passes more fuel than the source's recursion can consume. -/
def dfsVisit (adj : Nat → List Nat) : Nat → List Nat → (List Nat × List Nat) → (List Nat × List Nat)
  | 0, _, st => st
  | Nat.succ _, [], st => st
  | Nat.succ fuel, id :: rest, st =>
    if st.1.contains id then dfsVisit adj fuel rest st
    else
      let st1 := (id :: st.1, st.2)
      let stc := dfsVisit adj fuel (adj id) st1
      dfsVisit adj fuel rest (stc.1, stc.2 ++ [id])

/-- The post-order the DFS emits. -/
def dfsOrder (adj : Nat → List Nat) (outputs : List Nat) (fuel : Nat) : List Nat :=
  (dfsVisit adj fuel outputs ([], [])).2

/-- The ids `parse_function` constructs nodes for: exactly the DFS order
(the `edges.find == end → continue` guard of line 664 never fires, because
the DFS's `edges[id]` default-inserts an entry for every visited id); a
layer outside this list is skipped without any error. -/
def constructedIds (layers : List XmlLayer) (es : List EdgeRec) (fuel : Nat) : List Nat :=
  dfsOrder (adjOf es) (outputSeeds layers) fuel

/-- Backward reachability over the edge table: from `src`, following each
edge from its destination to its source. -/
inductive Reachable (adj : Nat → List Nat) (src : Nat) : Nat → Prop where
  | refl : Reachable adj src src
  | tail {b c : Nat} : Reachable adj src b → c ∈ adj b → Reachable adj src c

end IrFrontend

namespace IrFrontend

/-- Concrete layer used to exercise the positional-wiring loop: a destination
layer whose input ports are declared with ids `[7, 3, 9]`. -/
def demoDest : GenericLayerParams :=
  { layerId := 1, version := "opset8", name := "dst", type := "Concat",
    inputPorts :=
      [ { portId := 7, dims := [], precision := none, names := [] },
        { portId := 3, dims := [], precision := none, names := [] },
        { portId := 9, dims := [], precision := none, names := [] } ],
    outputPorts := [] }

/-- Source-layer table for the wiring example: layer 11 declares output ports
with ids `[2, 5]`, layers 10 and 12 declare a single output port id 0. -/
def demoSrcTable (n : Nat) : GenericLayerParams :=
  if n = 11 then
    { layerId := 11, version := "opset8", name := "s11", type := "Relu",
      inputPorts := [],
      outputPorts :=
        [ { portId := 2, dims := [], precision := some "f32", names := [] },
          { portId := 5, dims := [], precision := some "f32", names := [] } ] }
  else
    { layerId := n, version := "opset8", name := "s", type := "Relu",
      inputPorts := [],
      outputPorts := [ { portId := 0, dims := [], precision := some "f32", names := [] } ] }

/-- The three edges into `demoDest`: to-port 7 from layer 10 port 0, to-port 3
from layer 11 port 5, to-port 9 from layer 12 port 0. -/
def demoEdges : List EdgeRec :=
  [ { fromLayerId := 10, fromPortId := 0, toLayerId := 1, toPortId := 7 },
    { fromLayerId := 11, fromPortId := 5, toLayerId := 1, toPortId := 3 },
    { fromLayerId := 12, fromPortId := 0, toLayerId := 1, toPortId := 9 } ]

/-- A constructed-node list with a ReadValue (id 3) and an Assign (id 9) on
the same variable `"v"` (the spec's scenario S7). -/
def demoStateNodes : List BuiltNode :=
  [ { nodeId := 3, kind := .readValueNode "v" },
    { nodeId := 9, kind := .assignNode "v" } ]

/-- Three `<port_map>` outputs in document order: a Concat output at external
port 1, a disconnected output (external port -1) and a Body output at
external port 0. -/
def demoOuts : List PortMapOutput :=
  [ { external_port_id := 1, internal_layer_id := 9, axis := some 0,
      start := none, stride := none, end_ := none, part_size := none },
    { external_port_id := -1, internal_layer_id := 5, axis := none,
      start := none, stride := none, end_ := none, part_size := none },
    { external_port_id := 0, internal_layer_id := 7, axis := none,
      start := none, stride := none, end_ := none, part_size := none } ]

/-- A body io-map lookup mapping every inner layer id to itself. -/
def demoIoOut : Nat → Option Nat := fun n => some n

/-- A layer table with a Parameter (0), a Result (1) and a layer (2) that no
edge connects to the Result. -/
def demoLayers : List XmlLayer :=
  [ { layerId := 0, type := "Parameter" },
    { layerId := 1, type := "Result" },
    { layerId := 2, type := "Relu" } ]

/-- The single edge Parameter(0) to Result(1) of the demo graph. -/
def demoGraphEdges : List EdgeRec :=
  [ { fromLayerId := 0, fromPortId := 0, toLayerId := 1, toPortId := 0 } ]

end IrFrontend

namespace OclDevice

/-! ## The OpenCL device probe (`ocl_device.cpp`) -/

/-- What one run of the local-block-io probe kernel can observe of the
device: the `program.build` status (`CL_SUCCESS = 0`, with `.error` for an
exception thrown while creating the context, program, buffer, kernel or
queue), and the eight bytes read back from the kernel (or an execution
exception). -/
structure BlockIoProbe where
  build : Except String Int
  run : Except String (List Nat)

/-- The expected output pattern of `is_local_block_io_supported`
(ocl_device.cpp line 177): lane-indexed `2*lid`, read back and incremented. -/
def blockIoExpected : List Nat := [1, 3, 5, 7, 9, 11, 13, 15]

/-- The `try` body of `is_local_block_io_supported` (ocl_device.cpp lines
150-183): a failing build returns false, the read-back bytes must equal the
expected pattern, and any thrown error escapes to the handler. -/
def is_local_block_io_supported_try (p : BlockIoProbe) : Except String Bool :=
  match p.build with
  | .error e => .error e
  | .ok status =>
    if status ≠ 0 then .ok false
    else
      match p.run with
      | .error e => .error e
      | .ok bytes => .ok (bytes == blockIoExpected)

/-- `is_local_block_io_supported` with its `catch (...) { return false; }`
(ocl_device.cpp lines 184-186). -/
def is_local_block_io_supported (p : BlockIoProbe) : Bool :=
  match is_local_block_io_supported_try p with
  | .error _ => false
  | .ok b => b

/-- Modelled from the spec: the `ACCESS` bit of a USM capability word (the
`cl_intel_unified_shared_memory` header is outside these sources). -/
def CL_UNIFIED_SHARED_MEMORY_ACCESS_INTEL : Nat := 1

/-- The message `does_device_support` throws with. -/
def usmErrorMsg (err : Int) : String :=
  "[CLDNN ERROR]. clGetDeviceInfo error " ++ toString err

/-- `does_device_support` (ocl_device.cpp lines 265-270): a failing
`clGetDeviceInfo` THROWS a runtime error; otherwise the ACCESS bit decides. -/
def does_device_support (query : Except Int Nat) : Except String Bool :=
  match query with
  | .error err => .error (usmErrorMsg err)
  | .ok caps => .ok (caps &&& CL_UNIFIED_SHARED_MEMORY_ACCESS_INTEL != 0)

/-- The USM allocation classes of `init_memory_caps`. -/
inductive allocation_type where
  | usm_host
  | usm_shared
  | usm_device
deriving DecidableEq

/-- The three USM capability queries a device answers
(host, shared, device), each either a capability word or an OpenCL error. -/
structure UsmQueries where
  host : Except Int Nat
  shared : Except Int Nat
  device : Except Int Nat

/-- The capability list `init_memory_caps` builds when all three queries
succeed with words `h`, `s`, `d`. -/
def usmCapsList (h s d : Nat) : List allocation_type :=
  (if (h &&& CL_UNIFIED_SHARED_MEMORY_ACCESS_INTEL != 0 : Bool) then [allocation_type.usm_host] else []) ++
  (if (s &&& CL_UNIFIED_SHARED_MEMORY_ACCESS_INTEL != 0 : Bool) then [allocation_type.usm_shared] else []) ++
  (if (d &&& CL_UNIFIED_SHARED_MEMORY_ACCESS_INTEL != 0 : Bool) then [allocation_type.usm_device] else [])

/-- `init_memory_caps` (ocl_device.cpp lines 272-287): each category is
pushed when its query reports the ACCESS bit; an exception of
`does_device_support` propagates (there is no handler on this path, so the
`ocl_device` constructor rethrows it to the caller). -/
def init_memory_caps (supports_usm : Bool) (q : UsmQueries) :
    Except String (List allocation_type) :=
  if supports_usm then
    match does_device_support q.host with
    | .error e => .error e
    | .ok h =>
      match does_device_support q.shared with
      | .error e => .error e
      | .ok s =>
        match does_device_support q.device with
        | .error e => .error e
        | .ok d =>
          .ok ((if h then [allocation_type.usm_host] else []) ++
               (if s then [allocation_type.usm_shared] else []) ++
               (if d then [allocation_type.usm_device] else []))
  else .ok []

end OclDevice

namespace IrFrontend

/-- `findPortIndex` finds the rank of the first declared port carrying the
requested id: the offset variant used for the induction. -/
theorem findPortIndex_spec (ports : List LayerPortData) (id acc k : Nat) :
    findPortIndex ports id acc = some k ↔
      ∃ pre post, ports.map LayerPortData.portId = pre ++ id :: post ∧
        acc + pre.length = k ∧ id ∉ pre := by
  induction ports generalizing acc with
  | nil =>
    simp [findPortIndex]
  | cons pt rest ih =>
    simp only [findPortIndex, List.map_cons]
    by_cases h : pt.portId = id
    · subst h
      rw [if_pos rfl]
      constructor
      · intro h2
        have hk : acc = k := by simpa using h2
        exact ⟨[], rest.map LayerPortData.portId, by simp, by simpa using hk, by simp⟩
      · rintro ⟨pre, post, hdec, hlen, hnot⟩
        cases pre with
        | nil =>
          simp at hlen
          simp [hlen]
        | cons q pre2 =>
          simp only [List.cons_append, List.cons.injEq] at hdec
          exact absurd (hdec.1 ▸ List.mem_cons_self q pre2) hnot
    · rw [if_neg h, ih (acc + 1)]
      constructor
      · rintro ⟨pre, post, hdec, hlen, hnot⟩
        refine ⟨pt.portId :: pre, post, by simp [hdec], by simp; omega, ?_⟩
        intro hmem
        rcases List.mem_cons.mp hmem with h1 | h1
        · exact h (h1.symm)
        · exact hnot h1
      · rintro ⟨pre, post, hdec, hlen, hnot⟩
        cases pre with
        | nil =>
          simp only [List.nil_append, List.cons.injEq] at hdec
          exact absurd hdec.1 h
        | cons q pre2 =>
          simp only [List.cons_append, List.cons.injEq] at hdec
          refine ⟨pre2, post, hdec.2, ?_, fun hm => hnot (List.mem_cons_of_mem q hm)⟩
          simp at hlen
          omega

/-- C1: input wiring is positional, not by declared port id: `getRealInputPortId`
(resp. `getRealOutputPortId`) maps a declared port id to its rank in the layer's
declared input-port (resp. output-port) list; concretely, for a destination
whose input ports are declared with ids `[7,3,9]`, the edge with to-port 3
fills the second input slot (index 1) of the gathered input vector. -/
theorem c1_positional_port_wiring :
    (∀ (p : GenericLayerParams) (id k : Nat),
      getRealInputPortId p id = .ok k ↔
        ∃ pre post, p.inputPorts.map LayerPortData.portId = pre ++ id :: post ∧
          pre.length = k ∧ id ∉ pre) ∧
    (∀ (p : GenericLayerParams) (id k : Nat),
      getRealOutputPortId p id = .ok k ↔
        ∃ pre post, p.outputPorts.map LayerPortData.portId = pre ++ id :: post ∧
          pre.length = k ∧ id ∉ pre) ∧
    gatherInputs demoDest demoSrcTable (fun _ => true) demoEdges =
      .ok [some (10, 0), some (11, 1), some (12, 0)] := by
  refine ⟨?_, ?_, by rfl⟩
  · intro p id k
    rw [getRealInputPortId]
    constructor
    · intro h
      cases hf : findPortIndex p.inputPorts id 0 with
      | none => rw [hf] at h; exact absurd h (by simp)
      | some j =>
        rw [hf] at h
        have hj : j = k := by simpa using h
        subst hj
        have := (findPortIndex_spec p.inputPorts id 0 j).mp hf
        simpa using this
    · intro h
      have : findPortIndex p.inputPorts id 0 = some k := by
        rw [findPortIndex_spec]
        simpa using h
      rw [this]
  · intro p id k
    rw [getRealOutputPortId]
    constructor
    · intro h
      cases hf : findPortIndex p.outputPorts id 0 with
      | none => rw [hf] at h; exact absurd h (by simp)
      | some j =>
        rw [hf] at h
        have hj : j = k := by simpa using h
        subst hj
        have := (findPortIndex_spec p.outputPorts id 0 j).mp hf
        simpa using this
    · intro h
      have : findPortIndex p.outputPorts id 0 = some k := by
        rw [findPortIndex_spec]
        simpa using h
      rw [this]

/-- C7: a `<dim>` of `-1` parses, `-2` is rejected, and a non-integer is
rejected; in general a successfully extracted integer is accepted exactly
when it is at least `-1`, and a failed extraction is an error. -/
theorem c7_dim_bounds :
    (∀ s d, istreamReadInt s = some d → -1 ≤ d → parseDim s = .ok d) ∧
    (∀ s d, istreamReadInt s = some d → d < -1 →
      parseDim s = .error ("dimension (" ++ String.mk s ++ ") must be greater or equal to -1")) ∧
    (∀ s, istreamReadInt s = none →
      parseDim s = .error ("dimension (" ++ String.mk s ++ ") must be greater or equal to -1")) ∧
    parseDim "-1".toList = .ok (-1) ∧
    parseDim "-2".toList =
      .error ("dimension (" ++ String.mk "-2".toList ++ ") must be greater or equal to -1") ∧
    parseDim "abc".toList =
      .error ("dimension (" ++ String.mk "abc".toList ++ ") must be greater or equal to -1") := by
  refine ⟨?_, ?_, ?_, by rfl, by rfl, by rfl⟩
  · intro s d h hle
    simp only [parseDim, h]
    rw [if_neg (by omega)]
  · intro s d h hlt
    simp only [parseDim, h]
    rw [if_pos hlt]
  · intro s h
    simp only [parseDim, h]

/-- Closed instance of `c7_dim_bounds`: `-1` is accepted at the concrete
string `"-1"`. -/
theorem c7_dim_bounds_witness : parseDim "-1".toList = .ok (-1) :=
  c7_dim_bounds.1 "-1".toList (-1) (by rfl) (by omega)

/-- C8: evaluation of the escaped-comma restore at a name with two escaped
commas.  The attribute `a\,b\,c` encodes the single name `a,b,c`, but the
loop replaces the character at position `names[i].length() - 1` of the
accumulated name (not its last character), so only the first backslash is
turned into a comma and the result is `a,b\c`; a name with one escaped comma
(`a\,b`) is restored correctly. -/
theorem c8_names_escape_restore :
    parsePortNames "a\\,b\\,c".toList = .ok ["a,b\\c".toList] ∧
    "a,b\\c".toList ≠ "a,b,c".toList ∧
    parsePortNames "a\\,b".toList = .ok ["a,b".toList] := by
  refine ⟨by rfl, by decide, by rfl⟩

/-- `assocGet` after `assocPut`. -/
theorem assocGet_assocPut (m : List (String × Nat)) (k v : String) (x : Nat) :
    assocGet (assocPut m k x) v = if k = v then some x else assocGet m v := by
  induction m with
  | nil =>
    by_cases h : k = v <;> simp [assocPut, assocGet, h]
  | cons p rest ih =>
    obtain ⟨k0, v0⟩ := p
    by_cases h0 : k0 = k
    · subst h0
      by_cases h : k0 = v <;> simp [assocPut, assocGet, h]
    · by_cases h : k0 = v
      · subst h
        have : ¬ k = k0 := fun hh => h0 hh.symm
        simp [assocPut, assocGet, h0, this]
      · simp [assocPut, assocGet, h0, h, ih]

/-- When no ReadValue carries the variable, the recorded map has no entry. -/
theorem recordReadValues_none (v : String) :
    ∀ (nodes : List BuiltNode) (m : List (String × Nat)),
      assocGet m v = none →
      (∀ n, n ∈ nodes → ∀ w, n.kind = NodeKind.readValueNode w → w ≠ v) →
      assocGet (nodes.foldl
        (fun m n =>
          match n.kind with
          | .readValueNode w => assocPut m w n.nodeId
          | _ => m) m) v = none := by
  intro nodes
  induction nodes with
  | nil => intro m hm _; simpa using hm
  | cons n rest ih =>
    intro m hm hnone
    simp only [List.foldl_cons]
    cases hk : n.kind with
    | readValueNode w =>
      have hw : w ≠ v := hnone n (List.mem_cons_self n rest) w hk
      simp only [hk]
      refine ih _ ?_ (fun n2 h2 => hnone n2 (List.mem_cons_of_mem n h2))
      show assocGet (assocPut m w n.nodeId) v = none
      rw [assocGet_assocPut, if_neg hw, hm]
    | assignNode w =>
      simp only [hk]
      exact ih m hm (fun n2 h2 => hnone n2 (List.mem_cons_of_mem n h2))
    | plainNode =>
      simp only [hk]
      exact ih m hm (fun n2 h2 => hnone n2 (List.mem_cons_of_mem n h2))

/-- Every Assign among the sinks is paired with the recorded ReadValue when
the post-pass succeeds. -/
theorem attachAssignDeps_ok_mem (rv : List (String × Nat)) :
    ∀ (sinks : List BuiltNode) (deps : List (Nat × Nat)),
      attachAssignDeps rv sinks = .ok deps →
      ∀ n, n ∈ sinks → ∀ v, n.kind = NodeKind.assignNode v →
        ∃ r, assocGet rv v = some r ∧ (n.nodeId, r) ∈ deps := by
  intro sinks
  induction sinks with
  | nil => intro deps _ n hn; exact absurd hn (by simp)
  | cons n0 rest ih =>
    intro deps hok n hn v hv
    rcases List.mem_cons.mp hn with h1 | h1
    · subst h1
      simp only [attachAssignDeps, hv] at hok
      cases hget : assocGet rv v with
      | none => rw [hget] at hok; simp at hok
      | some r =>
        rw [hget] at hok
        cases hrest : attachAssignDeps rv rest with
        | error e => rw [hrest] at hok; simp at hok
        | ok ds =>
          rw [hrest] at hok
          have hd : (n.nodeId, r) :: ds = deps := by simpa using hok
          exact ⟨r, rfl, hd ▸ List.mem_cons_self _ _⟩
    · cases hk : n0.kind with
      | assignNode v0 =>
        simp only [attachAssignDeps, hk] at hok
        cases hget : assocGet rv v0 with
        | none => rw [hget] at hok; simp at hok
        | some r0 =>
          rw [hget] at hok
          cases hrest : attachAssignDeps rv rest with
          | error e => rw [hrest] at hok; simp at hok
          | ok ds =>
            rw [hrest] at hok
            have hd : (n0.nodeId, r0) :: ds = deps := by simpa using hok
            obtain ⟨r, hr, hmem⟩ := ih ds hrest n h1 v hv
            exact ⟨r, hr, hd ▸ List.mem_cons_of_mem _ hmem⟩
      | readValueNode w =>
        simp only [attachAssignDeps, hk] at hok
        obtain ⟨r, hr, hmem⟩ := ih deps hok n h1 v hv
        exact ⟨r, hr, hmem⟩
      | plainNode =>
        simp only [attachAssignDeps, hk] at hok
        obtain ⟨r, hr, hmem⟩ := ih deps hok n h1 v hv
        exact ⟨r, hr, hmem⟩

/-- An Assign among the sinks whose variable has no recorded ReadValue makes
the post-pass throw. -/
theorem attachAssignDeps_missing (rv : List (String × Nat)) :
    ∀ (sinks : List BuiltNode) (n : BuiltNode) (v : String),
      n ∈ sinks → n.kind = NodeKind.assignNode v → assocGet rv v = none →
      ∃ e, attachAssignDeps rv sinks = .error e := by
  intro sinks
  induction sinks with
  | nil => intro n v hn; exact absurd hn (by simp)
  | cons n0 rest ih =>
    intro n v hn hv hget
    rcases List.mem_cons.mp hn with h1 | h1
    · subst h1
      refine ⟨"map::at: variable " ++ v ++ " has no ReadValue", ?_⟩
      simp only [attachAssignDeps, hv, hget]
    · cases hk : n0.kind with
      | assignNode v0 =>
        cases hget0 : assocGet rv v0 with
        | none =>
          refine ⟨"map::at: variable " ++ v0 ++ " has no ReadValue", ?_⟩
          simp only [attachAssignDeps, hk, hget0]
        | some r0 =>
          obtain ⟨e, he⟩ := ih n v h1 hv hget
          refine ⟨e, ?_⟩
          simp only [attachAssignDeps, hk, hget0, he]
      | readValueNode w =>
        obtain ⟨e, he⟩ := ih n v h1 hv hget
        refine ⟨e, ?_⟩
        simp only [attachAssignDeps, hk, he]
      | plainNode =>
        obtain ⟨e, he⟩ := ih n v h1 hv hget
        refine ⟨e, ?_⟩
        simp only [attachAssignDeps, hk, he]

/-- C2: after all nodes are built, every sink that is an Assign receives a
control dependency onto the ReadValue recorded under the same variable id,
and when no ReadValue with that variable id was constructed the conversion
fails with an error instead of returning a Function. -/
theorem c2_assign_readvalue_dependency :
    (∀ (nodes : List BuiltNode) (res : List BuiltNode × List (Nat × Nat)),
      finishFunction nodes = .ok res →
      ∀ n, n ∈ nodes → ∀ v, n.kind = NodeKind.assignNode v →
        ∃ r, assocGet (recordReadValues nodes) v = some r ∧ (n.nodeId, r) ∈ res.2) ∧
    (∀ (nodes : List BuiltNode) (n : BuiltNode) (v : String),
      n ∈ nodes → n.kind = NodeKind.assignNode v →
      (∀ m, m ∈ nodes → ∀ w, m.kind = NodeKind.readValueNode w → w ≠ v) →
      ∃ e, finishFunction nodes = .error e) := by
  constructor
  · intro nodes res hok n hn v hv
    have hsink : n ∈ sinksOf nodes := by
      rw [sinksOf]
      refine List.mem_filter.mpr ⟨hn, ?_⟩
      rw [hv]
    rw [finishFunction] at hok
    cases hat : attachAssignDeps (recordReadValues nodes) (sinksOf nodes) with
    | error e => rw [hat] at hok; simp at hok
    | ok deps =>
      rw [hat] at hok
      have hres : res = (nodes, deps) := by
        have h2 := hok
        simp at h2
        exact h2.symm
      obtain ⟨r, hr, hmem⟩ := attachAssignDeps_ok_mem _ _ deps hat n hsink v hv
      exact ⟨r, hr, by rw [hres]; exact hmem⟩
  · intro nodes n v hn hv hnone
    have hsink : n ∈ sinksOf nodes := by
      rw [sinksOf]
      refine List.mem_filter.mpr ⟨hn, ?_⟩
      rw [hv]
    have hget : assocGet (recordReadValues nodes) v = none := by
      rw [recordReadValues]
      exact recordReadValues_none v nodes [] (by rfl) hnone
    obtain ⟨e, he⟩ := attachAssignDeps_missing _ _ n v hsink hv hget
    exact ⟨e, by rw [finishFunction, he]⟩

/-- Closed instance of `c2_assign_readvalue_dependency`: for the concrete
ReadValue (id 3) / Assign (id 9) pair on variable `"v"` the post-pass emits
the control dependency `(9, 3)`. -/
theorem c2_assign_readvalue_dependency_witness :
    ∃ r, assocGet (recordReadValues demoStateNodes) "v" = some r ∧
      ((9 : Nat), r) ∈ [((9 : Nat), (3 : Nat))] :=
  c2_assign_readvalue_dependency.1 demoStateNodes (demoStateNodes, [(9, 3)]) (by rfl)
    { nodeId := 9, kind := .assignNode "v" } (by decide) "v" (by rfl)

/-- C3: visiting the constant-buffer attribute of a `Const` operator's
`value` reads offset/size/element type/shape, fails on an empty weights
blob, fails when the blob is shorter than `offset + size`, fails when `size`
is below `ceil(volume * bitwidth / 8)`, and otherwise produces a shared view
whose bytes are exactly the `size` bytes of the blob starting at `offset`. -/
theorem c3_const_shared_buffer :
    ∀ (offset size bw : Nat) (shape : List Int) (weightsLen : Nat),
      (weightsLen = 0 →
        on_adapter_aligned_buffer "Const" "value" true none (some offset) (some size)
            (some bw) (some shape) weightsLen =
          .error "Empty weights data in bin file or bin file cannot be found!") ∧
      (weightsLen ≠ 0 → weightsLen < offset + size →
        on_adapter_aligned_buffer "Const" "value" true none (some offset) (some size)
            (some bw) (some shape) weightsLen =
          .error "Incorrect weights in bin file!") ∧
      (weightsLen ≠ 0 → offset + size ≤ weightsLen →
        size < requiredBytes (shape_size shape) bw →
        on_adapter_aligned_buffer "Const" "value" true none (some offset) (some size)
            (some bw) (some shape) weightsLen =
          .error "Attribute and shape size are inconsistent!") ∧
      (weightsLen ≠ 0 → offset + size ≤ weightsLen →
        requiredBytes (shape_size shape) bw ≤ size →
        on_adapter_aligned_buffer "Const" "value" true none (some offset) (some size)
            (some bw) (some shape) weightsLen =
          .ok (some (.sharedView { offset := offset, size := size })) ∧
        ∀ weights : List Nat, weights.length = weightsLen →
          viewBytes weights { offset := offset, size := size } =
            (weights.drop offset).take size ∧
          (viewBytes weights { offset := offset, size := size }).length = size) := by
  intro offset size bw shape weightsLen
  refine ⟨?_, ?_, ?_, ?_⟩
  · intro h0
    simp [on_adapter_aligned_buffer, constWeightsBuffer, h0]
  · intro h0 hlt
    simp [on_adapter_aligned_buffer, constWeightsBuffer, h0, hlt]
  · intro h0 hle hsz
    have hnlt : ¬ weightsLen < offset + size := by omega
    simp [on_adapter_aligned_buffer, constWeightsBuffer, h0, hnlt, hsz]
  · intro h0 hle hsz
    have hnlt : ¬ weightsLen < offset + size := by omega
    have hnsz : ¬ size < requiredBytes (shape_size shape) bw := by omega
    refine ⟨?_, ?_⟩
    · simp [on_adapter_aligned_buffer, constWeightsBuffer, h0, hnlt, hnsz]
    · intro weights hw
      refine ⟨by rfl, ?_⟩
      simp only [viewBytes, List.length_take, List.length_drop]
      omega

/-- Closed instance of `c3_const_shared_buffer` at the spec's scenario S2:
two f32 elements at offset 0, size 8, in an 8-byte blob. -/
theorem c3_const_shared_buffer_witness :
    on_adapter_aligned_buffer "Const" "value" true none (some 0) (some 8)
        (some 32) (some [2]) 8 =
      .ok (some (.sharedView { offset := 0, size := 8 })) :=
  ((c3_const_shared_buffer 0 8 32 [2] 8).2.2.2 (by decide) (by omega) (by decide)).1

/-- C4: opset resolution applies the version remappings: the listed
experimental ops at version `experimental`/`extension` are built from
opset6 (even when the original version has no registered opset, so the
remap precedes the unknown-opset failure); `{MVN, ROIPooling, ReorgYolo}`
at `opset1` are built from opset2; `Const` is built as `Constant`. -/
theorem c4_opset_version_remapping :
    (∀ (hasOpset : String → Bool) (containsType : String → String → Bool)
        (typ version : String),
      typ ∈ experimental_ops_added_to_opset →
      (version = "experimental" ∨ version = "extension") →
      hasOpset "opset6" = true → containsType "opset6" typ = true →
      createNodeOpset hasOpset containsType false typ version =
        .ok (.made "opset6" typ)) ∧
    (∀ (hasOpset : String → Bool) (containsType : String → String → Bool)
        (typ : String),
      (typ = "MVN" ∨ typ = "ROIPooling" ∨ typ = "ReorgYolo") →
      hasOpset "opset1" = true → hasOpset "opset2" = true →
      containsType "opset2" typ = true →
      createNodeOpset hasOpset containsType false typ "opset1" =
        .ok (.made "opset2" typ)) ∧
    (∀ (hasOpset : String → Bool) (containsType : String → String → Bool)
        (use_fw : Bool) (version : String),
      hasOpset version = true → containsType version "Constant" = true →
      createNodeOpset hasOpset containsType use_fw "Const" version =
        .ok (.made version "Constant")) ∧
    createNodeOpset (fun s => s == "opset6") (fun _ _ => true) false
        "GRUCell" "experimental" = .ok (.made "opset6" "GRUCell") := by
  refine ⟨?_, ?_, ?_, by rfl⟩
  · intro hasOpset containsType typ version hmem hver h6 hct
    have htc : typ ≠ "Const" := by
      intro h
      subst h
      revert hmem
      decide
    rcases hver with hv | hv <;> subst hv <;>
      simp [createNodeOpset, hmem, htc, h6, hct]
  · intro hasOpset containsType typ hmem h1 h2 hct
    rcases hmem with h | h | h <;> subst h <;>
      simp [createNodeOpset, experimental_ops_added_to_opset, h1, h2, hct]
  · intro hasOpset containsType use_fw version hver hct
    have hexp : ¬ (("Const" : String) ∈ experimental_ops_added_to_opset ∧
        (version = "experimental" ∨ version = "extension")) := by
      intro h
      exact absurd h.1 (by decide)
    simp [createNodeOpset, hexp, hver, hct]

/-- Closed instance of `c4_opset_version_remapping`: `MVN` at `opset1` is
constructed from opset2 (the spec's scenario S3). -/
theorem c4_opset_version_remapping_witness :
    createNodeOpset (fun s => s == "opset1" || s == "opset2") (fun _ _ => true) false
        "MVN" "opset1" = .ok (.made "opset2" "MVN") :=
  c4_opset_version_remapping.2.1 (fun s => s == "opset1" || s == "opset2")
    (fun _ _ => true) "MVN" (Or.inl rfl) (by rfl) (by rfl) (by rfl)

/-- C5: for a `<port_map>` input carrying an `axis` the emitted description
is Sliced, with defaults start 0, stride 1, end -1, part_size 1, whatever
`<back_edges>` holds (axis wins); Merged is emitted exactly when axis is
absent and a back-edge targets the body parameter; Invariant when neither
applies and the external port is non-negative; nothing when the external
port is negative and no back-edge exists. -/
theorem c5_input_descriptions :
    (∀ (backEdges : List BackEdge) (ioIn ioOut : Nat → Option Nat)
        (inp : PortMapInput) (a : Nat) (idx : Nat),
      inp.axis = some a → inp.start = none → inp.stride = none →
      inp.end_ = none → inp.part_size = none →
      ioIn inp.internal_layer_id = some idx →
      processInput backEdges ioIn ioOut inp =
        .ok (some (.slicedInput inp.external_port_id idx 0 1 1 (-1) a))) ∧
    (∀ (backEdges : List BackEdge) (ioIn ioOut : Nat → Option Nat)
        (inp : PortMapInput) (ext : Int) (b r : Nat),
      processInput backEdges ioIn ioOut inp = .ok (some (.mergedInput ext b r)) →
      inp.axis = none ∧ ∃ e, e ∈ backEdges ∧ e.to_layer = inp.internal_layer_id) ∧
    (∀ (backEdges : List BackEdge) (ioIn ioOut : Nat → Option Nat)
        (inp : PortMapInput) (e : BackEdge) (idxIn idxOut : Nat),
      inp.axis = none →
      backEdges.find? (fun be => be.to_layer == inp.internal_layer_id) = some e →
      ioIn inp.internal_layer_id = some idxIn → ioOut e.from_layer = some idxOut →
      processInput backEdges ioIn ioOut inp =
        .ok (some (.mergedInput inp.external_port_id idxIn idxOut))) ∧
    (∀ (backEdges : List BackEdge) (ioIn ioOut : Nat → Option Nat)
        (inp : PortMapInput) (idx : Nat),
      inp.axis = none →
      backEdges.find? (fun be => be.to_layer == inp.internal_layer_id) = none →
      0 ≤ inp.external_port_id → ioIn inp.internal_layer_id = some idx →
      processInput backEdges ioIn ioOut inp =
        .ok (some (.invariantInput inp.external_port_id idx))) ∧
    (∀ (backEdges : List BackEdge) (ioIn ioOut : Nat → Option Nat)
        (inp : PortMapInput),
      inp.axis = none →
      backEdges.find? (fun be => be.to_layer == inp.internal_layer_id) = none →
      inp.external_port_id < 0 →
      processInput backEdges ioIn ioOut inp = .ok none) := by
  refine ⟨?_, ?_, ?_, ?_, ?_⟩
  · intro backEdges ioIn ioOut inp a idx hax hs hst he hp hio
    simp [processInput, hax, hs, hst, he, hp, hio]
  · intro backEdges ioIn ioOut inp ext b r hok
    cases hax : inp.axis with
    | some a =>
      simp only [processInput, hax] at hok
      cases hio : ioIn inp.internal_layer_id with
      | none => rw [hio] at hok; simp at hok
      | some idx => rw [hio] at hok; simp at hok
    | none =>
      refine ⟨rfl, ?_⟩
      simp only [processInput, hax] at hok
      cases hbe : backEdges.find? (fun be => be.to_layer == inp.internal_layer_id) with
      | some e =>
        refine ⟨e, List.mem_of_find?_eq_some hbe, ?_⟩
        have := List.find?_some hbe
        simpa using this
      | none =>
        rw [hbe] at hok
        by_cases hext : 0 ≤ inp.external_port_id
        · rw [if_pos hext] at hok
          cases hio : ioIn inp.internal_layer_id with
          | none => rw [hio] at hok; simp at hok
          | some idx => rw [hio] at hok; simp at hok
        · rw [if_neg hext] at hok; simp at hok
  · intro backEdges ioIn ioOut inp e idxIn idxOut hax hbe hioIn hioOut
    simp [processInput, hax, hbe, hioIn, hioOut]
  · intro backEdges ioIn ioOut inp idx hax hbe hext hio
    simp [processInput, hax, hbe, hext, hio]
  · intro backEdges ioIn ioOut inp hax hbe hneg
    have hext : ¬ 0 ≤ inp.external_port_id := by omega
    simp [processInput, hax, hbe, hext]

/-- Closed instance of `c5_input_descriptions`: an input with axis 0 whose
body parameter 5 also has a back-edge from layer 9 still produces a Sliced
description with the default bounds. -/
theorem c5_input_descriptions_witness :
    processInput [{ from_layer := 9, to_layer := 5 }]
        (fun n => if n = 5 then some 2 else none)
        (fun n => if n = 9 then some 1 else none)
        { external_port_id := 0, internal_layer_id := 5, axis := some 0,
          start := none, stride := none, end_ := none, part_size := none } =
      .ok (some (.slicedInput 0 2 0 1 1 (-1) 0)) :=
  c5_input_descriptions.1 [{ from_layer := 9, to_layer := 5 }]
    (fun n => if n = 5 then some 2 else none)
    (fun n => if n = 9 then some 1 else none)
    { external_port_id := 0, internal_layer_id := 5, axis := some 0,
      start := none, stride := none, end_ := none, part_size := none }
    0 2 rfl rfl rfl rfl rfl (by rfl)

/-- Elements of `emplaceSorted` come from the inserted element or the list. -/
theorem mem_emplaceSorted {β : Type} (keyOf : β → Int) (b y : β) :
    ∀ l, y ∈ emplaceSorted keyOf l b → y = b ∨ y ∈ l := by
  intro l
  induction l with
  | nil =>
    intro h
    exact Or.inl (by simpa [emplaceSorted] using h)
  | cons x xs ih =>
    intro h
    rw [emplaceSorted] at h
    by_cases h1 : keyOf b < keyOf x
    · rw [if_pos h1] at h
      rcases List.mem_cons.mp h with h2 | h2
      · exact Or.inl h2
      · exact Or.inr h2
    · rw [if_neg h1] at h
      by_cases h2 : keyOf b = keyOf x
      · rw [if_pos h2] at h
        exact Or.inr h
      · rw [if_neg h2] at h
        rcases List.mem_cons.mp h with h3 | h3
        · exact Or.inr (h3 ▸ List.mem_cons_self x xs)
        · rcases ih h3 with h4 | h4
          · exact Or.inl h4
          · exact Or.inr (List.mem_cons_of_mem x h4)

/-- `emplaceSorted` preserves strictly-increasing key order. -/
theorem pairwise_emplaceSorted {β : Type} (keyOf : β → Int) (b : β) :
    ∀ l, l.Pairwise (fun a c => keyOf a < keyOf c) →
      (emplaceSorted keyOf l b).Pairwise (fun a c => keyOf a < keyOf c) := by
  intro l
  induction l with
  | nil =>
    intro _
    simp [emplaceSorted]
  | cons x xs ih =>
    intro hp
    rw [List.pairwise_cons] at hp
    obtain ⟨hx, hxs⟩ := hp
    rw [emplaceSorted]
    by_cases h1 : keyOf b < keyOf x
    · rw [if_pos h1]
      refine List.Pairwise.cons ?_ (List.Pairwise.cons hx hxs)
      intro y hy
      rcases List.mem_cons.mp hy with h2 | h2
      · subst h2; exact h1
      · exact lt_trans h1 (hx y h2)
    · rw [if_neg h1]
      by_cases h2 : keyOf b = keyOf x
      · rw [if_pos h2]
        exact List.Pairwise.cons hx hxs
      · rw [if_neg h2]
        refine List.Pairwise.cons ?_ (ih hxs)
        intro y hy
        rcases mem_emplaceSorted keyOf b y xs hy with h3 | h3
        · subst h3; omega
        · exact hx y h3

/-- The whole emplace fold yields a strictly key-sorted list. -/
theorem sortByKey_pairwise {β : Type} (keyOf : β → Int) (l : List β) :
    (sortByKey keyOf l).Pairwise (fun a c => keyOf a < keyOf c) := by
  suffices h : ∀ acc, acc.Pairwise (fun a c => keyOf a < keyOf c) →
      (l.foldl (emplaceSorted keyOf) acc).Pairwise (fun a c => keyOf a < keyOf c) by
    exact h [] (by simp)
  induction l with
  | nil =>
    intro acc h
    simpa using h
  | cons x xs ih =>
    intro acc h
    simp only [List.foldl_cons]
    exact ih _ (pairwise_emplaceSorted keyOf x acc h)

/-- The output loop: the emitted list counts exactly the non-negative
entries and numbers them consecutively from the starting counter. -/
theorem parseOutputsLoop_spec (ioOut : Nat → Option Nat) :
    ∀ (l : List PortMapOutput) (num : Nat) (ds : List OutputDesc),
      parseOutputsLoop ioOut l num = .ok ds →
      ds.length = l.countP (fun o => decide (0 ≤ o.external_port_id)) ∧
      ∀ k (hk : k < ds.length), outputNumberOf (ds.get ⟨k, hk⟩) = num + k := by
  intro l
  induction l with
  | nil =>
    intro num ds h
    have hds : ds = [] := by
      have h2 : Except.ok (ε := String) ([] : List OutputDesc) = .ok ds := by
        simpa [parseOutputsLoop] using h
      simpa using h2.symm
    subst hds
    simp
  | cons o rest ih =>
    intro num ds h
    by_cases hext : 0 ≤ o.external_port_id
    · simp only [parseOutputsLoop, if_pos hext] at h
      cases hio : ioOut o.internal_layer_id with
      | none => rw [hio] at h; simp at h
      | some bodyIdx =>
        rw [hio] at h
        cases hrest : parseOutputsLoop ioOut rest (num + 1) with
        | error e => rw [hrest] at h; simp at h
        | ok ds2 =>
          rw [hrest] at h
          have hds : (match o.axis with
              | some ax =>
                OutputDesc.concatOutput bodyIdx num (o.start.getD 0) (o.stride.getD 1)
                  (o.part_size.getD 1) (o.end_.getD (-1)) ax
              | none => OutputDesc.bodyOutput bodyIdx num (-1)) :: ds2 = ds := by
            simpa using h
          obtain ⟨hlen, hidx⟩ := ih (num + 1) ds2 hrest
          subst hds
          constructor
          · simp [List.countP_cons, hext, hlen]
          · intro k hk
            cases k with
            | zero =>
              cases hax : o.axis <;> simp [hax, outputNumberOf]
            | succ k2 =>
              have hk2 : k2 < ds2.length := by simpa using hk
              have h2 : outputNumberOf (ds2.get ⟨k2, hk2⟩) = num + 1 + k2 := hidx k2 hk2
              have h3 : outputNumberOf (ds2.get ⟨k2, hk2⟩) = num + (k2 + 1) := by omega
              simpa using h3
    · simp only [parseOutputsLoop, if_neg hext] at h
      obtain ⟨hlen, hidx⟩ := ih num ds h
      refine ⟨?_, hidx⟩
      simp [List.countP_cons, hext, hlen]

/-- C6: `<port_map>` outputs are processed in ascending `external_port_id`
order (the output map is strictly key-sorted); a negative `external_port_id`
emits nothing and does not advance `output_number`, so each emitted
description's `output_number` equals the count of previously emitted
(connected) descriptions, i.e. its position in the result. -/
theorem c6_output_descriptions :
    (∀ outs : List PortMapOutput,
      (sortByKey keyOutput outs).Pairwise
        (fun a b => a.external_port_id < b.external_port_id)) ∧
    (∀ (ioOut : Nat → Option Nat) (outs : List PortMapOutput) (ds : List OutputDesc),
      parseOutputDescription ioOut outs = .ok ds →
      ds.length = (sortByKey keyOutput outs).countP
          (fun o => decide (0 ≤ o.external_port_id)) ∧
      ∀ k (hk : k < ds.length), outputNumberOf (ds.get ⟨k, hk⟩) = k) := by
  constructor
  · intro outs
    exact sortByKey_pairwise keyOutput outs
  · intro ioOut outs ds h
    obtain ⟨hlen, hidx⟩ := parseOutputsLoop_spec ioOut (sortByKey keyOutput outs) 0 ds h
    refine ⟨hlen, fun k hk => ?_⟩
    have h2 := hidx k hk
    simpa using h2

/-- Closed instance of `c6_output_descriptions`: for outputs with external
ports `{1, -1, 0}`, the disconnected one is dropped and the Concat output at
external port 1 (processed last) carries `output_number = 1`. -/
theorem c6_output_descriptions_witness :
    outputNumberOf
      (([OutputDesc.bodyOutput 7 0 (-1),
         OutputDesc.concatOutput 9 1 0 1 1 (-1) 0]).get ⟨1, by decide⟩) = 1 :=
  (c6_output_descriptions.2 demoIoOut demoOuts
      [OutputDesc.bodyOutput 7 0 (-1), OutputDesc.concatOutput 9 1 0 1 1 (-1) 0]
      (by rfl)).2 1 (by decide)

/-- Everything the DFS marks or emits satisfies any property that holds of
the worklist, holds of the starting state, and is closed under following the
adjacency. -/
theorem dfsVisit_sound (adj : Nat → List Nat) (P : Nat → Prop)
    (hstep : ∀ a, P a → ∀ b, b ∈ adj a → P b) :
    ∀ (fuel : Nat) (work : List Nat) (st : List Nat × List Nat),
      (∀ x, x ∈ work → P x) → (∀ x, x ∈ st.1 → P x) → (∀ x, x ∈ st.2 → P x) →
      (∀ x, x ∈ (dfsVisit adj fuel work st).1 → P x) ∧
      (∀ x, x ∈ (dfsVisit adj fuel work st).2 → P x) := by
  intro fuel
  induction fuel with
  | zero =>
    intro work st hw h1 h2
    exact ⟨h1, h2⟩
  | succ fuel ih =>
    intro work st hw h1 h2
    cases work with
    | nil => exact ⟨h1, h2⟩
    | cons id rest =>
      have hrestw : ∀ x, x ∈ rest → P x := fun x hx => hw x (List.mem_cons_of_mem id hx)
      cases hc : st.1.contains id with
      | true =>
        have hm : id ∈ st.1 := by simpa using hc
        have h3 := ih rest st hrestw h1 h2
        simpa [dfsVisit, hm] using h3
      | false =>
        have hm : id ∉ st.1 := by simpa using hc
        have hPid : P id := hw id (List.mem_cons_self id rest)
        have h1b : ∀ x, x ∈ (id :: st.1) → P x := by
          intro x hx
          rcases List.mem_cons.mp hx with h | h
          · exact h ▸ hPid
          · exact h1 x h
        have hchild := ih (adj id) (id :: st.1, st.2) (fun x hx => hstep id hPid x hx) h1b h2
        have h2b : ∀ x, x ∈ ((dfsVisit adj fuel (adj id) (id :: st.1, st.2)).2 ++ [id]) → P x := by
          intro x hx
          rcases List.mem_append.mp hx with h | h
          · exact hchild.2 x h
          · exact (List.mem_singleton.mp h) ▸ hPid
        have hrest := ih rest ((dfsVisit adj fuel (adj id) (id :: st.1, st.2)).1,
            (dfsVisit adj fuel (adj id) (id :: st.1, st.2)).2 ++ [id]) hrestw hchild.1 h2b
        simpa [dfsVisit, hm] using hrest

/-- C10: every id the conversion constructs a node for is reachable, through
the edge table followed backwards, from some layer of type Result or Assign;
a layer not reachable that way (layer 2 of the demo graph) is silently left
out of the result rather than raising an error. -/
theorem c10_reachable_from_outputs :
    (∀ (layers : List XmlLayer) (es : List EdgeRec) (fuel : Nat) (id : Nat),
      id ∈ constructedIds layers es fuel →
      ∃ o, o ∈ outputSeeds layers ∧ Reachable (adjOf es) o id) ∧
    constructedIds demoLayers demoGraphEdges 16 = [0, 1] ∧
    (2 : Nat) ∉ constructedIds demoLayers demoGraphEdges 16 := by
  refine ⟨?_, by rfl, by decide⟩
  intro layers es fuel id hid
  have hsound := dfsVisit_sound (adjOf es)
    (fun x => ∃ o, o ∈ outputSeeds layers ∧ Reachable (adjOf es) o x)
    (fun a ha b hb => by
      obtain ⟨o, ho, hr⟩ := ha
      exact ⟨o, ho, Reachable.tail hr hb⟩)
    fuel (outputSeeds layers) ([], [])
    (fun x hx => ⟨x, hx, Reachable.refl⟩)
    (fun x hx => absurd hx (by simp))
    (fun x hx => absurd hx (by simp))
  exact hsound.2 id hid

/-- Closed instance of `c10_reachable_from_outputs`: the Parameter (id 0) of
the demo graph is reachable backwards from an output layer. -/
theorem c10_reachable_from_outputs_witness :
    ∃ o, o ∈ outputSeeds demoLayers ∧ Reachable (adjOf demoGraphEdges) o 0 :=
  c10_reachable_from_outputs.1 demoLayers demoGraphEdges 16 0 (by decide)

end IrFrontend

namespace OclDevice

/-- The success path of `init_memory_caps` produces exactly `usmCapsList`. -/
theorem init_memory_caps_ok (h s d : Nat) :
    init_memory_caps true { host := .ok h, shared := .ok s, device := .ok d } =
      .ok (usmCapsList h s d) := rfl

/-- C9 counterexample: when the host-USM capability query fails with OpenCL
error -30, the probe does not return a capability record; the thrown
runtime error propagates out of `init_memory_caps`. -/
theorem c9_probe_error_cex :
    init_memory_caps true { host := .error (-30), shared := .ok 3, device := .ok 3 } =
      .error "[CLDNN ERROR]. clGetDeviceInfo error -30" := rfl

/-- C9 (amended): the local-block-io kernel probe never propagates a failure
(every build error, non-zero build status, execution error or wrong pattern
yields `false`, and the exact pattern yields `true`); when the three USM
queries succeed each capability is present exactly when its ACCESS bit is
set; but a USM capability query that fails makes `does_device_support`
throw, and the error propagates out of the probe instead of being reported
as unsupported. -/
theorem c9_probe_amended :
    (∀ (e : String) (run : Except String (List Nat)),
      is_local_block_io_supported { build := .error e, run := run } = false) ∧
    (∀ (st : Int) (run : Except String (List Nat)), st ≠ 0 →
      is_local_block_io_supported { build := .ok st, run := run } = false) ∧
    (∀ (e : String),
      is_local_block_io_supported { build := .ok 0, run := .error e } = false) ∧
    (∀ (bytes : List Nat), bytes ≠ blockIoExpected →
      is_local_block_io_supported { build := .ok 0, run := .ok bytes } = false) ∧
    is_local_block_io_supported { build := .ok 0, run := .ok blockIoExpected } = true ∧
    (∀ h s d : Nat,
      init_memory_caps true { host := .ok h, shared := .ok s, device := .ok d } =
        .ok (usmCapsList h s d) ∧
      (allocation_type.usm_host ∈ usmCapsList h s d ↔
        (h &&& CL_UNIFIED_SHARED_MEMORY_ACCESS_INTEL != 0) = true) ∧
      (allocation_type.usm_shared ∈ usmCapsList h s d ↔
        (s &&& CL_UNIFIED_SHARED_MEMORY_ACCESS_INTEL != 0) = true) ∧
      (allocation_type.usm_device ∈ usmCapsList h s d ↔
        (d &&& CL_UNIFIED_SHARED_MEMORY_ACCESS_INTEL != 0) = true)) ∧
    (∀ (e : Int) (s d : Except Int Nat),
      init_memory_caps true { host := .error e, shared := s, device := d } =
        .error (usmErrorMsg e)) := by
  refine ⟨?_, ?_, ?_, ?_, by rfl, ?_, ?_⟩
  · intro e run
    rfl
  · intro st run hst
    simp [is_local_block_io_supported, is_local_block_io_supported_try, hst]
  · intro e
    rfl
  · intro bytes hb
    simp [is_local_block_io_supported, is_local_block_io_supported_try, hb]
  · intro h s d
    refine ⟨rfl, ?_, ?_, ?_⟩ <;>
      cases hb1 : (h &&& CL_UNIFIED_SHARED_MEMORY_ACCESS_INTEL != 0 : Bool) <;>
      cases hb2 : (s &&& CL_UNIFIED_SHARED_MEMORY_ACCESS_INTEL != 0 : Bool) <;>
      cases hb3 : (d &&& CL_UNIFIED_SHARED_MEMORY_ACCESS_INTEL != 0 : Bool) <;>
        simp [usmCapsList, hb1, hb2, hb3]
  · intro e s d
    rfl

/-- Closed instance of `c9_probe_amended`: a build status of 1 (not
CL_SUCCESS) makes the local-block-io probe answer false without an error. -/
theorem c9_probe_amended_witness :
    is_local_block_io_supported
      { build := .ok 1, run := .ok blockIoExpected } = false :=
  c9_probe_amended.2.1 1 (.ok blockIoExpected) (by decide)

end OclDevice
